import Mathlib

/-!
Verification development for the kestrel_engine performance pipeline
(`scripts/capture_sprite_perf.py` and `scripts/sprite_bench.py`).

The model has two independent parts.

Part 1 embeds the metric extractor of `capture_sprite_perf.py`: the five
regular-expression patterns (STEP_STATS_RE, SPRITE_TOTALS_RE,
SPRITE_BUCKET_AVG_RE, TOP_STEP_RE, TOP_MIX_RE) are modelled as token lists
matched character by character against the harness stdout, with the Python
`re.search` (first match anywhere) and `re.finditer` (all non-overlapping
matches, left to right) as explicit scanning functions, and the Python
`float(...)` on a `[0-9.]+`-shaped capture as a partial conversion that
fails exactly when the capture has no digit or more than one dot.  The
text is a `List Char`; the character classes are the ASCII classes emitted
by the harness.

Part 2 embeds the aggregation / baseline / report phase of
`sprite_bench.py`: per-label accumulation across trials (the loop of `main`
over `report_entries`), `statistics.mean` / `statistics.pstdev`, baseline loading
(`load_baseline`), delta computation, the summary-payload dictionaries and
the text table (`format_table`).  Numbers are exact rationals; the one
float operation with no exact rational counterpart, `math.sqrt` inside
`statistics.pstdev`, enters the pipeline as an explicit parameter `fsqrt`
(the floating-point square root of the runtime), while the statistical claims
about the standard deviation are stated against the exact real-valued
definitions `pstdevR` / `stdValR`.
-/

/-! ## Part 1: metric extraction (`capture_sprite_perf.py`) -/

abbrev Chars := List Char

/-- The character class `[0-9.]` of the float-valued capture groups. -/
def isNumChar (c : Char) : Bool := c.isDigit || c == '.'

/-- Match a literal piece of a pattern: `dropLit l s` returns the rest of
`s` after the literal `l`, when `l` is a prefix of `s`. -/
def dropLit : Chars → Chars → Option Chars
  | [], s => some s
  | _ :: _, [] => none
  | l :: ls, c :: cs => if c = l then dropLit ls cs else none

/-- One token of a pattern: a literal, a `[0-9.]+` capture, a `\d+`
capture, or an uncaptured `\s+` run. -/
inductive Tok where
  | lit (l : Chars)
  | num
  | dig
  | ws
  deriving DecidableEq

/-- Match a token list at the start of `s`, returning the captured groups
in pattern order and the rest of the input after the match.  The repeat
classes are taken greedily; in every pattern of the source the character
following a `[0-9.]+`, `\d+` or `\s+` group lies outside the class, so the
greedy run is exactly what the backtracking regex engine matches. -/
def matchToks : List Tok → Chars → Option (List Chars × Chars)
  | [], s => some ([], s)
  | .lit l :: ts, s =>
    match dropLit l s with
    | some rest => matchToks ts rest
    | none => none
  | .num :: ts, s =>
    let cap := s.takeWhile isNumChar
    if cap.isEmpty then none
    else
      match matchToks ts (s.dropWhile isNumChar) with
      | some (caps, rest) => some (cap :: caps, rest)
      | none => none
  | .dig :: ts, s =>
    let cap := s.takeWhile Char.isDigit
    if cap.isEmpty then none
    else
      match matchToks ts (s.dropWhile Char.isDigit) with
      | some (caps, rest) => some (cap :: caps, rest)
      | none => none
  | .ws :: ts, s =>
    let cap := s.takeWhile Char.isWhitespace
    if cap.isEmpty then none
    else matchToks ts (s.dropWhile Char.isWhitespace)

/-- `re.search`: the captures of the first match, scanning start positions
left to right. -/
def reSearch (ts : List Tok) : Chars → Option (List Chars)
  | [] =>
    match matchToks ts [] with
    | some (caps, _) => some caps
    | none => none
  | c :: cs =>
    match matchToks ts (c :: cs) with
    | some (caps, _) => some caps
    | none => reSearch ts cs

/-- Fuelled worker for `re.finditer`: all non-overlapping matches, left to
right, continuing after the end of each match.  Every pattern of the
source consumes at least one character, so fuel `s.length + 1` is never
exhausted. -/
def reFindAux (ts : List Tok) : ℕ → Chars → List (List Chars)
  | 0, _ => []
  | _ + 1, [] =>
    match matchToks ts [] with
    | some (caps, _) => [caps]
    | none => []
  | fuel + 1, c :: cs =>
    match matchToks ts (c :: cs) with
    | some (caps, rest) => caps :: reFindAux ts fuel rest
    | none => reFindAux ts fuel cs

/-- `re.finditer`: the capture lists of all matches, in source order. -/
def reFind (ts : List Tok) (s : Chars) : List (List Chars) :=
  reFindAux ts (s.length + 1) s

/-- Decimal value of a digit run (the value `int(...)` gives a `\d+`
capture; on an all-digit string `int` cannot fail). -/
def digitsToNat (cs : Chars) : ℕ :=
  cs.foldl (fun a c => 10 * a + (c.toNat - 48)) 0

/-- Python `float(...)` applied to a `[0-9.]+`-shaped capture: defined
exactly when the capture has at least one digit and at most one dot
(`float("1..5")` and `float(".")` raise `ValueError`), with the usual
decimal value otherwise. -/
def pyFloat (cs : Chars) : Option ℚ :=
  let ip := cs.takeWhile Char.isDigit
  let rest := cs.dropWhile Char.isDigit
  match rest with
  | [] => if ip.isEmpty then none else some (digitsToNat ip)
  | '.' :: frac =>
    if frac.all Char.isDigit && !(ip.isEmpty && frac.isEmpty) then
      some ((digitsToNat ip : ℚ) + (digitsToNat frac : ℚ) / (10 : ℚ) ^ frac.length)
    else none
  | _ => none

/-- STEP_STATS_RE. -/
def stepStatsPat : List Tok :=
  [.lit "[animation_profile] sys_drive per-step stats: mean=".data, .num,
   .lit " ms p95=".data, .num,
   .lit " ms max=".data, .num,
   .lit " ms steady_mean=".data, .num,
   .lit " ms steady_samples=".data, .dig,
   .lit " spike_mean=".data, .num,
   .lit " ms spike_samples=".data, .dig]

/-- SPRITE_TOTALS_RE. -/
def spriteTotalsPat : List Tok :=
  [.lit "[animation_profile] anim_stats sprite totals: fast_loop=".data, .dig,
   .lit " event=".data, .dig,
   .lit " plain=".data, .dig,
   .lit " bsearch=".data, .dig,
   .lit " fast_bucket=".data, .dig,
   .lit " general_bucket=".data, .dig,
   .lit " applies=".data, .dig]

/-- SPRITE_BUCKET_AVG_RE. -/
def bucketAvgPat : List Tok :=
  [.lit "[animation_profile] anim_stats sprite bucket avg: fast=".data, .num,
   .lit " entities/frame general=".data, .num,
   .lit " entities/frame".data]

/-- TOP_STEP_RE. -/
def topStepPat : List Tok :=
  [.lit "[animation_profile]".data, .ws,
   .lit "step".data, .ws, .dig, .ws,
   .lit "->".data, .ws, .num,
   .lit " ms".data]

/-- TOP_MIX_RE. -/
def topMixPat : List Tok :=
  [.lit "[animation_profile]".data, .ws,
   .lit "step".data, .ws, .dig, .ws,
   .lit "->".data, .ws, .num,
   .lit " ms | sprite(fast=".data, .dig,
   .lit " event=".data, .dig,
   .lit " plain=".data, .dig,
   .lit " bsearch=".data, .dig,
   .lit " fast_bucket=".data, .dig,
   .lit " general_bucket=".data, .dig,
   .lit " applies=".data, .dig,
   .lit ") transform(adv=".data, .dig,
   .lit " zero=".data, .dig,
   .lit " skipped=".data, .dig,
   .lit " loop_resume=".data, .dig,
   .lit " zero_duration=".data, .dig,
   .lit " fast=".data, .dig,
   .lit " slow=".data, .dig,
   .lit ") time_ns(adv=".data, .dig,
   .lit " sample=".data, .dig,
   .lit " apply=".data, .dig,
   .lit ")".data]

/-- Spec name for the fatal condition of a pattern that matched
structurally while a float-valued field failed the numeric grammar
(`ValueError` escaping `parse_profile_output` in the source, the
`MalformedMetricError` of the spec taxonomy). -/
inductive MetricError where
  | malformedMetric
  deriving DecidableEq

/-- The `per_step_stats` dictionary. -/
structure StepStats where
  mean : ℚ
  p95 : ℚ
  max : ℚ
  steady : ℚ
  steady_samples : ℕ
  spike : ℚ
  spike_samples : ℕ

/-- The `sprite_totals` dictionary (all fields `int`). -/
structure SpriteTotals where
  fast_loop : ℕ
  event : ℕ
  plain : ℕ
  bsearch : ℕ
  fast_bucket : ℕ
  general_bucket : ℕ
  applies : ℕ

/-- The `sprite_bucket_avg` dictionary. -/
structure BucketAvg where
  fast : ℚ
  general : ℚ

/-- One `top_steps` record. -/
structure TopStep where
  step : ℕ
  ms : ℚ

/-- One `top_step_mix` record. -/
structure TopMixEntry where
  step : ℕ
  ms : ℚ
  fast : ℕ
  event : ℕ
  plain : ℕ
  bsearch : ℕ
  fast_bucket : ℕ
  general_bucket : ℕ
  applies : ℕ
  adv : ℕ
  zero : ℕ
  skipped : ℕ
  loop_resume : ℕ
  zero_duration : ℕ
  fast_path : ℕ
  slow_path : ℕ
  adv_ns : ℕ
  sample_ns : ℕ
  apply_ns : ℕ

/-- Convert the STEP_STATS_RE captures: `float` on mean, p95, max,
steady_mean, spike_mean; `int` on the two sample counts. -/
def convStepStats : List Chars → Except MetricError StepStats
  | [m, p, mx, st, ss, sp, ps] =>
    match pyFloat m, pyFloat p, pyFloat mx, pyFloat st, pyFloat sp with
    | some mq, some pq, some mxq, some stq, some spq =>
      .ok ⟨mq, pq, mxq, stq, digitsToNat ss, spq, digitsToNat ps⟩
    | _, _, _, _, _ => .error .malformedMetric
  | _ => .error .malformedMetric

/-- Convert the SPRITE_TOTALS_RE captures (`int` on every field; on a
digit run `int` cannot fail). -/
def convTotals : List Chars → Except MetricError SpriteTotals
  | [a, b, c, d, e, f, g] =>
    .ok ⟨digitsToNat a, digitsToNat b, digitsToNat c, digitsToNat d,
         digitsToNat e, digitsToNat f, digitsToNat g⟩
  | _ => .error .malformedMetric

/-- Convert the SPRITE_BUCKET_AVG_RE captures (`float` on both fields). -/
def convBucketAvg : List Chars → Except MetricError BucketAvg
  | [f, g] =>
    match pyFloat f, pyFloat g with
    | some fq, some gq => .ok ⟨fq, gq⟩
    | _, _ => .error .malformedMetric
  | _ => .error .malformedMetric

/-- Convert the TOP_STEP_RE captures (`int` on the index, `float` on the
value). -/
def convTopStep : List Chars → Except MetricError TopStep
  | [i, v] =>
    match pyFloat v with
    | some vq => .ok ⟨digitsToNat i, vq⟩
    | none => .error .malformedMetric
  | _ => .error .malformedMetric

/-- Convert the TOP_MIX_RE captures (`int` on the index and the seventeen
counters, `float` on the step value). -/
def convTopMix : List Chars → Except MetricError TopMixEntry
  | [i, v, a, b, c, d, e, f, g, h, j, k, l, m, n, o, p, q, r] =>
    match pyFloat v with
    | some vq =>
      .ok ⟨digitsToNat i, vq, digitsToNat a, digitsToNat b, digitsToNat c,
           digitsToNat d, digitsToNat e, digitsToNat f, digitsToNat g,
           digitsToNat h, digitsToNat j, digitsToNat k, digitsToNat l,
           digitsToNat m, digitsToNat n, digitsToNat o, digitsToNat p,
           digitsToNat q, digitsToNat r⟩
    | none => .error .malformedMetric
  | _ => .error .malformedMetric

/-- Lift a conversion over the optional result of a single-shot
`re.search`: no match yields no record, a match whose conversion fails is
fatal. -/
def convOpt (f : List Chars → Except MetricError α) :
    Option (List Chars) → Except MetricError (Option α)
  | none => .ok none
  | some caps => (f caps).map some

/-- Convert each occurrence of a repeating pattern in order, stopping at
the first fatal conversion (the `for m in RE.finditer(...)` loops, whose
body may raise). -/
def exceptMapM (f : α → Except MetricError β) : List α → Except MetricError (List β)
  | [] => .ok []
  | a :: as =>
    match f a with
    | .error e => .error e
    | .ok b =>
      match exceptMapM f as with
      | .error e => .error e
      | .ok bs => .ok (b :: bs)

/-- The `data` dictionary built by `parse_profile_output`.  An absent
single-shot key is `none`; an absent repeating key is the empty list. -/
structure ProfileData where
  per_step_stats : Option StepStats
  sprite_totals : Option SpriteTotals
  sprite_bucket_avg : Option BucketAvg
  top_steps : List TopStep
  top_step_mix : List TopMixEntry

/-- `parse_profile_output`: `re.search` (first match) for the three
single-shot patterns, `re.finditer` (every match, in order) for the two
repeating patterns, in the evaluation order of the source. -/
def parseProfileOutput (s : Chars) : Except MetricError ProfileData := do
  let pss ← convOpt convStepStats (reSearch stepStatsPat s)
  let tot ← convOpt convTotals (reSearch spriteTotalsPat s)
  let bav ← convOpt convBucketAvg (reSearch bucketAvgPat s)
  let tsteps ← exceptMapM convTopStep (reFind topStepPat s)
  let tmix ← exceptMapM convTopMix (reFind topMixPat s)
  return ⟨pss, tot, bav, tsteps, tmix⟩

/-- The empty extraction result. -/
def emptyProfile : ProfileData := ⟨none, none, none, [], []⟩

/-! ### First-match and occurrence lemmas -/

/-- With enough fuel, the first element of the `re.finditer` occurrence
list is exactly the `re.search` result. -/
theorem reFindAux_head (ts : List Tok) :
    ∀ (fuel : ℕ) (s : Chars), s.length < fuel →
      (reFindAux ts fuel s).head? = reSearch ts s := by
  intro fuel
  induction fuel with
  | zero => intro s h; exact absurd h (Nat.not_lt_zero _)
  | succ n ih =>
    intro s h
    cases s with
    | nil =>
      simp only [reFindAux, reSearch]
      cases matchToks ts [] with
      | none => rfl
      | some p => cases p; rfl
    | cons c cs =>
      simp only [reFindAux, reSearch]
      cases hm : matchToks ts (c :: cs) with
      | none =>
        exact ih cs (by simpa [Nat.lt_succ_iff] using Nat.le_of_succ_le_succ h)
      | some p => cases p; rfl

/-- `reFind` begins with the `re.search` match. -/
theorem reFind_head (ts : List Tok) (s : Chars) :
    (reFind ts s).head? = reSearch ts s :=
  reFindAux_head ts (s.length + 1) s (Nat.lt_succ_self _)

/-- When `re.search` finds nothing, `re.finditer` finds nothing either. -/
theorem reFindAux_nil_of_none (ts : List Tok) :
    ∀ (fuel : ℕ) (s : Chars), reSearch ts s = none →
      reFindAux ts fuel s = [] := by
  intro fuel
  induction fuel with
  | zero => intro s _; rfl
  | succ n ih =>
    intro s h
    cases s with
    | nil =>
      simp only [reSearch] at h
      simp only [reFindAux]
      cases hm : matchToks ts [] with
      | none => rfl
      | some p => cases p; rw [hm] at h; simp at h
    | cons c cs =>
      simp only [reSearch] at h
      simp only [reFindAux]
      cases hm : matchToks ts (c :: cs) with
      | none =>
        rw [hm] at h
        exact ih cs h
      | some p => cases p; rw [hm] at h; simp at h

/-- When `re.search` finds nothing, the occurrence list is empty. -/
theorem reFind_nil_of_none (ts : List Tok) (s : Chars)
    (h : reSearch ts s = none) : reFind ts s = [] :=
  reFindAux_nil_of_none ts (s.length + 1) s h

/-- A successful `exceptMapM` succeeds on every element. -/
theorem exceptMapM_ok_mem {α β : Type} (f : α → Except MetricError β) :
    ∀ (l : List α) (ys : List β), exceptMapM f l = .ok ys →
      ∀ x ∈ l, ∃ y, f x = .ok y := by
  intro l
  induction l with
  | nil => intro ys _ x hx; cases hx
  | cons a as ih =>
    intro ys h x hx
    simp only [exceptMapM] at h
    cases hf : f a with
    | error e => rw [hf] at h; cases h
    | ok b =>
      rw [hf] at h
      cases hrest : exceptMapM f as with
      | error e => rw [hrest] at h; cases h
      | ok bs =>
        rw [hrest] at h
        rcases List.mem_cons.mp hx with rfl | hx
        · exact ⟨b, hf⟩
        · exact ih bs hrest x hx

/-- Decompose a successful run of `parse_profile_output` into its five
pattern-level components. -/
theorem parse_components (s : Chars) (d : ProfileData)
    (h : parseProfileOutput s = .ok d) :
    convOpt convStepStats (reSearch stepStatsPat s) = .ok d.per_step_stats ∧
    convOpt convTotals (reSearch spriteTotalsPat s) = .ok d.sprite_totals ∧
    convOpt convBucketAvg (reSearch bucketAvgPat s) = .ok d.sprite_bucket_avg ∧
    exceptMapM convTopStep (reFind topStepPat s) = .ok d.top_steps ∧
    exceptMapM convTopMix (reFind topMixPat s) = .ok d.top_step_mix := by
  unfold parseProfileOutput at h
  cases h1 : convOpt convStepStats (reSearch stepStatsPat s) with
  | error e => rw [h1] at h; simp [bind, Except.bind] at h
  | ok pss =>
  rw [h1] at h
  simp only [bind, Except.bind] at h
  cases h2 : convOpt convTotals (reSearch spriteTotalsPat s) with
  | error e => rw [h2] at h; cases h
  | ok tot =>
  rw [h2] at h
  cases h3 : convOpt convBucketAvg (reSearch bucketAvgPat s) with
  | error e => rw [h3] at h; cases h
  | ok bav =>
  rw [h3] at h
  cases h4 : exceptMapM convTopStep (reFind topStepPat s) with
  | error e => rw [h4] at h; cases h
  | ok tst =>
  rw [h4] at h
  cases h5 : exceptMapM convTopMix (reFind topMixPat s) with
  | error e => rw [h5] at h; cases h
  | ok tmx =>
  rw [h5] at h
  simp only [pure, Except.pure, Except.ok.injEq] at h
  subst h
  exact ⟨rfl, rfl, rfl, rfl, rfl⟩

/-- Boolean success test of an `Except` (structural; forces no payload). -/
def exceptIsOk : Except ε α → Bool
  | .ok _ => true
  | .error _ => false

/-- A structurally successful `Except` is `.ok` of its extracted value. -/
theorem exceptIsOk_getD {ε α : Type} (e : Except ε α) (a : α)
    (h : exceptIsOk e = true) : e = .ok (e.toOption.getD a) := by
  cases e with
  | ok b => rfl
  | error err => cases h

/-- C3: on every trial output the extractor accepts, each single-shot
category (StepStats, Totals, BucketAverage) holds the conversion of the
first pattern occurrence only — later occurrences are ignored — each
repeating category (TopStep, TopStepMix) holds exactly one record per
pattern occurrence in source order, and a text with no occurrence of any
pattern yields the empty record set (non-matching text is silently
ignored, not an error). -/
theorem c3_extractor_multiplicity (s : Chars) (d : ProfileData)
    (h : parseProfileOutput s = .ok d) :
    convOpt convStepStats ((reFind stepStatsPat s).head?) = .ok d.per_step_stats ∧
    convOpt convTotals ((reFind spriteTotalsPat s).head?) = .ok d.sprite_totals ∧
    convOpt convBucketAvg ((reFind bucketAvgPat s).head?) = .ok d.sprite_bucket_avg ∧
    exceptMapM convTopStep (reFind topStepPat s) = .ok d.top_steps ∧
    exceptMapM convTopMix (reFind topMixPat s) = .ok d.top_step_mix ∧
    (reSearch stepStatsPat s = none → reSearch spriteTotalsPat s = none →
     reSearch bucketAvgPat s = none → reSearch topStepPat s = none →
     reSearch topMixPat s = none → d = emptyProfile) := by
  obtain ⟨h1, h2, h3, h4, h5⟩ := parse_components s d h
  refine ⟨by rw [reFind_head]; exact h1, by rw [reFind_head]; exact h2,
          by rw [reFind_head]; exact h3, h4, h5, ?_⟩
  intro n1 n2 n3 n4 n5
  rw [n1] at h1
  rw [n2] at h2
  rw [n3] at h3
  rw [reFind_nil_of_none _ _ n4] at h4
  rw [reFind_nil_of_none _ _ n5] at h5
  obtain ⟨f1, f2, f3, f4, f5⟩ := d
  simp only [convOpt, exceptMapM, Except.ok.injEq] at h1 h2 h3 h4 h5
  simp only [emptyProfile, ← h1, ← h2, ← h3, ← h4, ← h5]

/-- Witness text for C3: a duplicated StepStats line, unrelated noise, a
plain top-step line, a mix line (whose prefix is also a TopStep
occurrence) and a bucket-average line. -/
def c3Sample : Chars :=
  ("[animation_profile] sys_drive per-step stats: mean=1.5 ms p95=2.0 ms max=3.25 ms steady_mean=1.25 ms steady_samples=100 spike_mean=4.5 ms spike_samples=7\n"
   ++ "[animation_profile] sys_drive per-step stats: mean=9.0 ms p95=9.0 ms max=9.0 ms steady_mean=9.0 ms steady_samples=1 spike_mean=9.0 ms spike_samples=1\n"
   ++ "unrelated diagnostic text\n"
   ++ "[animation_profile]  step 12 -> 0.75 ms\n"
   ++ "[animation_profile] anim_stats sprite bucket avg: fast=10.5 entities/frame general=2.5 entities/frame\n").data

/-- The record set the extractor produces on the C3 witness text. -/
def c3SampleData : ProfileData :=
  (parseProfileOutput c3Sample).toOption.getD emptyProfile

set_option maxRecDepth 100000 in
/-- Witness for C3 at the concrete sample text. -/
theorem c3_extractor_multiplicity_witness :
    convOpt convStepStats ((reFind stepStatsPat c3Sample).head?) = .ok c3SampleData.per_step_stats ∧
    convOpt convTotals ((reFind spriteTotalsPat c3Sample).head?) = .ok c3SampleData.sprite_totals ∧
    convOpt convBucketAvg ((reFind bucketAvgPat c3Sample).head?) = .ok c3SampleData.sprite_bucket_avg ∧
    exceptMapM convTopStep (reFind topStepPat c3Sample) = .ok c3SampleData.top_steps ∧
    exceptMapM convTopMix (reFind topMixPat c3Sample) = .ok c3SampleData.top_step_mix ∧
    (reSearch stepStatsPat c3Sample = none → reSearch spriteTotalsPat c3Sample = none →
     reSearch bucketAvgPat c3Sample = none → reSearch topStepPat c3Sample = none →
     reSearch topMixPat c3Sample = none → c3SampleData = emptyProfile) :=
  c3_extractor_multiplicity c3Sample c3SampleData
    (exceptIsOk_getD _ emptyProfile (by decide))

/-- C6: when any pattern matches structurally but a float-valued capture
fails the numeric grammar, the whole extraction fails with the fatal
MalformedMetricError — the record is not dropped and the field is not
skipped. -/
theorem c6_malformed_metric_fatal (s : Chars)
    (h : (∃ caps, reSearch stepStatsPat s = some caps ∧ convStepStats caps = .error .malformedMetric) ∨
         (∃ caps, reSearch spriteTotalsPat s = some caps ∧ convTotals caps = .error .malformedMetric) ∨
         (∃ caps, reSearch bucketAvgPat s = some caps ∧ convBucketAvg caps = .error .malformedMetric) ∨
         (∃ caps ∈ reFind topStepPat s, convTopStep caps = .error .malformedMetric) ∨
         (∃ caps ∈ reFind topMixPat s, convTopMix caps = .error .malformedMetric)) :
    parseProfileOutput s = .error .malformedMetric := by
  cases hp : parseProfileOutput s with
  | error e => cases e; rfl
  | ok d =>
    exfalso
    obtain ⟨h1, h2, h3, h4, h5⟩ := parse_components s d hp
    rcases h with ⟨caps, hs, hc⟩ | ⟨caps, hs, hc⟩ | ⟨caps, hs, hc⟩ |
      ⟨caps, hm, hc⟩ | ⟨caps, hm, hc⟩
    · rw [hs] at h1; simp only [convOpt, hc, Except.map] at h1; cases h1
    · rw [hs] at h2; simp only [convOpt, hc, Except.map] at h2; cases h2
    · rw [hs] at h3; simp only [convOpt, hc, Except.map] at h3; cases h3
    · obtain ⟨y, hy⟩ := exceptMapM_ok_mem _ _ _ h4 caps hm
      rw [hc] at hy; cases hy
    · obtain ⟨y, hy⟩ := exceptMapM_ok_mem _ _ _ h5 caps hm
      rw [hc] at hy; cases hy

/-- Witness text for C6: the bucket-average pattern matches, with a
`fast` capture `1..2` that `float` rejects. -/
def c6Sample : Chars :=
  "[animation_profile] anim_stats sprite bucket avg: fast=1..2 entities/frame general=3.0 entities/frame".data

/-- Witness for C6 at the concrete malformed sample. -/
theorem c6_malformed_metric_fatal_witness :
    parseProfileOutput c6Sample = .error .malformedMetric :=
  c6_malformed_metric_fatal c6Sample
    (Or.inr (Or.inr (Or.inl ⟨["1..2".data, "3.0".data], rfl, rfl⟩)))

/-! ## Part 2: aggregation and reporting (`sprite_bench.py`) -/

/-- JSON documents, the persistence format of the report artifacts.
Numbers are exact rationals (every Python float is one). -/
inductive Json where
  | null
  | bool (b : Bool)
  | num (x : ℚ)
  | str (s : String)
  | arr (elems : List Json)
  | obj (fields : List (String × Json))

/-- Value of the last binding of a key in the field list of an object
(`json.loads` keeps the last duplicate key, and `dict` lookup then sees
that value). -/
def lookupLast (k : String) : List (String × Json) → Option Json
  | [] => none
  | kv :: rest =>
    match lookupLast k rest with
    | some v => some v
    | none => if kv.1 = k then some kv.2 else none

/-- Key lookup on a parsed JSON value: `d.get(k)` or `d[k]` on an
object, nothing on any other value.  On a non-dict Python raises instead
(`AttributeError` for `.get`, `TypeError` for indexing): `loadBaseline`
models the payload-level `AttributeError` itself by matching on the
artifact shape, and at entry level `entryLabel` — always consulted
before `entryMean` — turns the absent lookup of a non-object entry into
a fatal error, so no Python error path is collapsed into a success. -/
def jGet (j : Json) (k : String) : Option Json :=
  match j with
  | .obj fields => lookupLast k fields
  | _ => none

/-- Failures of `load_baseline`.  `notFound` is the `FileNotFoundError`
raised when the artifact path does not exist (the spec name is
BaselineNotFoundError); `attributeError` is the `AttributeError` of
`payload.get` when the parsed artifact is not a dict; `keyError` is the
`KeyError` of `entry["label"]` on an entry with no label; `typeError`
collects the `TypeError` cases (a `systems` value that cannot be
iterated as entries, an entry that is not an object, an unhashable label
value, and — a deliberate modelling choice — a present but non-numeric
`mean_ms`, whose `TypeError` Python would defer to the delta subtraction
in `main`). -/
inductive BaselineError where
  | notFound
  | attributeError
  | keyError
  | typeError
  deriving DecidableEq

/-- `entry["label"]` plus the use of the value as a dict key: no label is
a `KeyError`; an array or object label is unhashable (`TypeError`); a
non-string hashable label builds a key no string lookup ever matches, so
the model drops the entry (observationally equivalent for every consumer,
all of which look labels up by string). -/
def entryLabel (e : Json) : Except BaselineError (Option String)  :=
  match jGet e "label" with
  | none => .error .keyError
  | some (.str l) => .ok (some l)
  | some (.arr _) => .error .typeError
  | some (.obj _) => .error .typeError
  | some _ => .ok none

/-- `entry.get("mean_ms", 0.0)`: the numeric value when present, the
float default `0.0` when the key is absent. -/
def entryMean (e : Json) : Except BaselineError ℚ :=
  match jGet e "mean_ms" with
  | none => .ok 0
  | some (.num x) => .ok x
  | some _ => .error .typeError

/-- Insert into a string-keyed mapping with Python `dict` semantics: a
repeated key overwrites in place, a fresh key appends. -/
def dictInsert (m : List (String × α)) (k : String) (v : α) : List (String × α) :=
  if m.any (fun kv => kv.1 = k) then
    m.map (fun kv => if kv.1 = k then (k, v) else kv)
  else m ++ [(k, v)]

/-- Mapping lookup (`dict.get`; keys are unique under `dictInsert`, so
the first binding is the binding). -/
def dictGet : List (String × α) → String → Option α
  | [], _ => none
  | kv :: rest, k => if kv.1 = k then some kv.2 else dictGet rest k

/-- The dict comprehension of `load_baseline`: one pass over the entries
of `payload.get("systems", [])`, binding each label to its mean. -/
def buildMapping : List Json → List (String × ℚ) → Except BaselineError (List (String × ℚ))
  | [], acc => .ok acc
  | e :: es, acc =>
    match entryLabel e with
    | .error err => .error err
    | .ok none => buildMapping es acc
    | .ok (some l) =>
      match entryMean e with
      | .error err => .error err
      | .ok x => buildMapping es (dictInsert acc l x)

/-- `load_baseline`: the artifact is `none` when no file exists at the
path (the `path.exists()` guard raises `FileNotFoundError`), otherwise
the parsed JSON document.  `payload.get("systems", [])` requires the
payload to be a dict — on any other parsed value Python raises
`AttributeError` — and yields the entries; a present non-array `systems`
value raises when iterated, except for the two degenerate empty
iterables (empty string, empty object). -/
def loadBaseline : Option Json → Except BaselineError (List (String × ℚ))
  | none => .error .notFound
  | some (.obj fields) =>
    match lookupLast "systems" fields with
    | none => .ok []
    | some (.arr es) => buildMapping es []
    | some (.str s) => if s.isEmpty then .ok [] else .error .typeError
    | some (.obj fs) => if fs.isEmpty then .ok [] else .error .typeError
    | some _ => .error .typeError
  | some _ => .error .attributeError

/-- `statistics.mean`: the exact arithmetic mean (Python computes it in
exact fraction arithmetic before one final float conversion). -/
def meanValue (xs : List ℚ) : ℚ := xs.sum / xs.length

/-- The population variance inside `statistics.pstdev`. -/
def pvariance (xs : List ℚ) : ℚ :=
  ((xs.map (fun x => (x - meanValue xs) ^ 2)).sum) / xs.length

/-- `std_val = stats.pstdev(values) if len(values) > 1 else 0.0`, with the
floating-point square root of the runtime abstracted as `fsqrt`. -/
def stdValue (fsqrt : ℚ → ℚ) (xs : List ℚ) : ℚ :=
  if 1 < xs.length then fsqrt (pvariance xs) else 0

/-- Exact real-valued arithmetic mean, for the statistical claims. -/
noncomputable def meanR (xs : List ℝ) : ℝ := xs.sum / xs.length

/-- Exact real-valued population variance. -/
noncomputable def pvarR (xs : List ℝ) : ℝ :=
  ((xs.map (fun x => (x - meanR xs) ^ 2)).sum) / xs.length

/-- `statistics.pstdev` in exact real arithmetic. -/
noncomputable def pstdevR (xs : List ℝ) : ℝ := Real.sqrt (pvarR xs)

/-- The `std_val` branch of `main` in exact real arithmetic. -/
noncomputable def stdValR (xs : List ℝ) : ℝ :=
  if 1 < xs.length then pstdevR xs else 0

/-- Modelled from the spec: the population standard deviation, written
out as the spec states it — the square root of the mean of squared
deviations from the arithmetic mean, with no Bessel correction. -/
noncomputable def specPopStddev (xs : List ℝ) : ℝ :=
  Real.sqrt (((xs.map (fun x => (x - xs.sum / xs.length) ^ 2)).sum) / xs.length)

/-- Three zero-padded decimal digits. -/
def pad3 (n : ℕ) : String :=
  let s := toString n
  String.mk (List.replicate (3 - s.length) '0') ++ s

/-- `f"{v:.3f}"`: fixed-point with three decimals.  The model rounds the
exact rational at three decimals; Python rounds the nearest binary double
instead, an abstraction that affects no claim (the formatted cells enter
the claims only as opaque strings). -/
def fmtFixed3 (x : ℚ) : String :=
  let n : ℤ := round (x * 1000)
  let core := toString (n.natAbs / 1000) ++ "." ++ pad3 (n.natAbs % 1000)
  if x < 0 then "-" ++ core else core

/-- `f"{delta:+.3f}"`: as `fmtFixed3` with an explicit plus sign on
non-negative values. -/
def fmtSigned3 (x : ℚ) : String :=
  if x < 0 then fmtFixed3 x else "+" ++ fmtFixed3 x

/-- One entry of the harness report consumed after a trial (`read_report`
cases): the fields `main` reads from it.  `units`, `count`, `steps` and
`samples` are carried opaquely (`entry.get(...)`, default `None` =
`Json.null`); `budget_ms` and `summary.mean_step_ms` are the two numeric
fields `main` computes with. -/
structure CaseEntry where
  label : String
  units : Json
  count : Json
  budget_ms : ℚ
  steps : Json
  samples : Json
  mean_step_ms : ℚ

/-- The per-label accumulator created by `cases.setdefault(label, {...})`:
metadata from the first entry that reported the label, plus the ordered
per-trial scalars. -/
structure Slot where
  units : Json
  count : Json
  budget : ℚ
  steps : Json
  samples : Json
  runs : List ℚ

/-- The fresh slot `setdefault` supplies (metadata of the first entry,
empty run list). -/
def slotInit (e : CaseEntry) : Slot :=
  ⟨e.units, e.count, e.budget_ms, e.steps, e.samples, []⟩

/-- Fold one report entry into the label table: `setdefault` then
`slot["runs"].append(entry["summary"]["mean_step_ms"])`. -/
def addCase (cases : List (String × Slot)) (e : CaseEntry) : List (String × Slot) :=
  match dictGet cases e.label with
  | some _ =>
    cases.map (fun kv =>
      if kv.1 = e.label then (kv.1, { kv.2 with runs := kv.2.runs ++ [e.mean_step_ms] })
      else kv)
  | none => cases ++ [(e.label, { slotInit e with runs := [e.mean_step_ms] })]

/-- Failures inside one trial of the loop: a non-zero exit of the harness
subprocess (`run_once` with `check=True`, the spec name
HarnessInvocationFailed) or a missing report artifact (`read_report`, the
spec name ReportArtifactMissing). -/
inductive TrialError where
  | harnessFailed
  | reportMissing
  deriving DecidableEq

/-- The trial loop of `main`: each trial either aborts the pipeline with
its error or contributes its report entries to the label table. -/
def collectTrials : List (Except TrialError (List CaseEntry)) → List (String × Slot) →
    Except TrialError (List (String × Slot))
  | [], cases => .ok cases
  | t :: ts, cases =>
    match t with
    | .error e => .error e
    | .ok entries => collectTrials ts (entries.foldl addCase cases)

/-- Stable insertion into a sorted string list. -/
def insertSorted (x : String) : List String → List String
  | [] => [x]
  | y :: ys => if x ≤ y then x :: y :: ys else y :: insertSorted x ys

/-- `sorted(...)` on the label list. -/
def sortStrings (xs : List String) : List String := xs.foldr insertSorted []

/-- One element of the `systems` list of the payload (the `entry_payload`
dictionary, keys in insertion order; `delta_vs_baseline_ms` is present
only when a numeric delta was computed). -/
structure BuiltEntry where
  label : String
  units : Json
  count : Json
  budget_ms : ℚ
  runs : List ℚ
  mean_ms : ℚ
  stddev_ms : ℚ
  delta_vs_baseline_ms : Option ℚ

/-- The per-label body of the report loop of `main` (payload side):
mean, standard deviation, and the optional numeric delta, which exists
exactly when a baseline was supplied and holds the label. -/
def buildEntry (fsqrt : ℚ → ℚ) (hasB : Bool) (bmap : List (String × ℚ))
    (label : String) (slot : Slot) : BuiltEntry :=
  let values := slot.runs
  let mean_val := meanValue values
  let std_val := stdValue fsqrt values
  let delta : Option ℚ :=
    if hasB then
      match dictGet bmap label with
      | none => none
      | some b => some (mean_val - b)
    else none
  ⟨label, slot.units, slot.count, slot.budget, values, mean_val, std_val, delta⟩

/-- The per-label body of the report loop of `main` (table side): the row
cells in source order.  The delta cell exists only when a baseline was
supplied (run-level toggle) and reads `n/a` when the baseline lacks the
label; the source guard `delta_cell if delta_cell else "n/a"` collapses
to the match, a formatted float never being the empty string. -/
def buildRow (fsqrt : ℚ → ℚ) (hasB : Bool) (bmap : List (String × ℚ))
    (label : String) (slot : Slot) : List String :=
  let values := slot.runs
  let mean_val := meanValue values
  let std_val := stdValue fsqrt values
  let deltaCell :=
    match dictGet bmap label with
    | none => "n/a"
    | some b => fmtSigned3 (mean_val - b)
  [label] ++ values.map fmtFixed3 ++ [fmtFixed3 mean_val, fmtFixed3 std_val]
    ++ (if hasB then [deltaCell] else []) ++ [fmtFixed3 slot.budget]

/-- The table header: `system`, one `runN` column per requested trial,
`mean`, `stddev`, `delta` only when a baseline was supplied, `budget`. -/
def headerRow (runsArg : ℕ) (hasB : Bool) : List String :=
  ["system"] ++ (List.range runsArg).map (fun i => "run" ++ toString (i + 1))
    ++ ["mean", "stddev"] ++ (if hasB then ["delta"] else []) ++ ["budget"]

/-- The `systems` list of the payload: one entry per label, labels in sorted
order. -/
def buildSystems (fsqrt : ℚ → ℚ) (hasB : Bool) (bmap : List (String × ℚ))
    (cases : List (String × Slot)) : List BuiltEntry :=
  (sortStrings (cases.map (fun kv => kv.1))).filterMap
    (fun l => (dictGet cases l).map (fun slot => buildEntry fsqrt hasB bmap l slot))

/-- The table rows: header first, then one row per label in sorted
order. -/
def buildRows (fsqrt : ℚ → ℚ) (runsArg : ℕ) (hasB : Bool) (bmap : List (String × ℚ))
    (cases : List (String × Slot)) : List (List String) :=
  headerRow runsArg hasB ::
    (sortStrings (cases.map (fun kv => kv.1))).filterMap
      (fun l => (dictGet cases l).map (fun slot => buildRow fsqrt hasB bmap l slot))

/-- `cell.rjust(w)`: left-pad with spaces to width `w` (a longer cell is
left unchanged). -/
def padCell (w : ℕ) (s : String) : String :=
  String.mk (List.replicate (w - s.length) ' ') ++ s

/-- One pass of the width loop of `format_table` over a row:
`widths[idx] = max(widths[idx], len(cell))`, failing like the `IndexError`
of the source when the row is wider than the header that sized the width
array. -/
def bumpWidths : List ℕ → List String → Option (List ℕ)
  | ws, [] => some ws
  | [], _ :: _ => none
  | w :: ws, c :: cs => (bumpWidths ws cs).map (fun ws2 => max w c.length :: ws2)

/-- `format_table`: size the width array from the first row, take the
column-wise maximum over all rows, then right-justify every cell and join
with two spaces / newlines. -/
def format_table (rows : List (List String)) : Option String :=
  match rows with
  | [] => some ""
  | r0 :: _ =>
    match rows.foldl (fun acc row => acc.bind (fun ws => bumpWidths ws row))
        (some (r0.map (fun _ => 0))) with
    | none => none
    | some ws =>
      some (String.intercalate "\n"
        (rows.map (fun row => String.intercalate "  " (List.zipWith padCell ws row))))

/-- The top-level `summary_payload` of `main`. -/
structure SummaryPayload where
  label : String
  timestamp : String
  commit : String
  command : List String
  env : List (String × String)
  baseline_meta : Option Json
  bench_meta : Option Json
  systems : List BuiltEntry

/-- The `entry_payload` dictionary as the JSON artifact stores it, keys
in insertion order. -/
def builtEntryToJson (e : BuiltEntry) : Json :=
  .obj ([("label", .str e.label), ("units", e.units), ("count", e.count),
         ("budget_ms", .num e.budget_ms), ("runs", .arr (e.runs.map Json.num)),
         ("mean_ms", .num e.mean_ms), ("stddev_ms", .num e.stddev_ms)]
    ++ (match e.delta_vs_baseline_ms with
        | some d => [("delta_vs_baseline_ms", .num d)]
        | none => []))

/-- The `summary_payload` dictionary as `json.dumps` writes it: the six
construction-time keys, then the conditional `baseline` and
`animation_targets_metadata` keys added afterwards. -/
def payloadToJson (p : SummaryPayload) : Json :=
  .obj ([("label", .str p.label), ("timestamp", .str p.timestamp),
         ("commit", .str p.commit),
         ("command", .arr (p.command.map Json.str)),
         ("env", .obj (p.env.map (fun kv => (kv.1, Json.str kv.2)))),
         ("systems", .arr (p.systems.map builtEntryToJson))]
    ++ (match p.baseline_meta with
        | some b => [("baseline", b)]
        | none => [])
    ++ (match p.bench_meta with
        | some b => [("animation_targets_metadata", b)]
        | none => []))

/-- Failures of the whole pipeline: a trial abort, or the `IndexError`
`format_table` raises on a row wider than the header. -/
inductive RunError where
  | trial (e : TrialError)
  | render
  deriving DecidableEq

/-- Everything environment-derived that `main` threads into the report
unchanged. -/
structure RunConfig where
  runsArg : ℕ
  label : String
  timestamp : String
  commit : String
  command : List String
  env : List (String × String)
  hasBaseline : Bool
  baselineMap : List (String × ℚ)
  baselineMeta : Option Json
  benchMeta : Option Json

/-- The pure slice of `main` downstream of argument parsing: run the
trials in order (a failing trial aborts everything), aggregate, and only
then produce the two artifacts — the text table and the JSON payload.
An aborted run returns its error and no artifact. -/
def mainRun (fsqrt : ℚ → ℚ) (cfg : RunConfig)
    (trials : List (Except TrialError (List CaseEntry))) :
    Except RunError (SummaryPayload × String) :=
  match collectTrials trials [] with
  | .error e => .error (.trial e)
  | .ok cases =>
    match format_table (buildRows fsqrt cfg.runsArg cfg.hasBaseline cfg.baselineMap cases) with
    | none => .error .render
    | some table =>
      .ok (⟨cfg.label, cfg.timestamp, cfg.commit, cfg.command, cfg.env,
            cfg.baselineMeta, cfg.benchMeta,
            buildSystems fsqrt cfg.hasBaseline cfg.baselineMap cases⟩, table)

/-! ### Statistics (C1) -/

/-- C1: at finalize, over the non-empty scalar list collected for a
label, the reported mean is the arithmetic mean of the values; the
reported standard deviation is 0 when fewer than 2 values were collected
and otherwise the population (non-Bessel-corrected) standard deviation;
and on [10, 20, 30] the mean is 20 and the standard deviation is
sqrt(200/3), which lies between 8.164 and 8.166 (the ≈ 8.165 of the
spec). -/
theorem c1_finalize_mean_stddev (xs : List ℝ) (h : xs ≠ []) :
    meanR xs = xs.sum / xs.length ∧
    (xs.length < 2 → stdValR xs = 0) ∧
    (2 ≤ xs.length → stdValR xs = specPopStddev xs) ∧
    meanR [10, 20, 30] = 20 ∧
    stdValR [10, 20, 30] = Real.sqrt (200 / 3) ∧
    8.164 < stdValR [10, 20, 30] ∧ stdValR [10, 20, 30] < 8.166 := by
  have hmean : meanR [10, 20, 30] = 20 := by
    simp [meanR]
    norm_num
  have hvar : pvarR [10, 20, 30] = 200 / 3 := by
    simp [pvarR, hmean]
    norm_num
  have hstd : stdValR [10, 20, 30] = Real.sqrt (200 / 3) := by
    rw [stdValR, if_pos (by simp)]
    rw [pstdevR, hvar]
  refine ⟨rfl, ?_, ?_, hmean, hstd, ?_, ?_⟩
  · intro hlt
    rw [stdValR, if_neg (by omega)]
  · intro hge
    rw [stdValR, if_pos (by omega), pstdevR, specPopStddev, pvarR, meanR]
  · rw [hstd]
    rw [show (8.164 : ℝ) = 8.164 from rfl]
    rw [Real.lt_sqrt (by norm_num)]
    norm_num
  · rw [hstd]
    rw [Real.sqrt_lt' (by norm_num)]
    norm_num

/-- Witness for C1 at the concrete value list [10, 20, 30]. -/
theorem c1_finalize_mean_stddev_witness :
    meanR [10, 20, 30] = [10, 20, 30].sum / ([10, 20, 30] : List ℝ).length ∧
    (([10, 20, 30] : List ℝ).length < 2 → stdValR [10, 20, 30] = 0) ∧
    (2 ≤ ([10, 20, 30] : List ℝ).length → stdValR [10, 20, 30] = specPopStddev [10, 20, 30]) ∧
    meanR [10, 20, 30] = 20 ∧
    stdValR [10, 20, 30] = Real.sqrt (200 / 3) ∧
    8.164 < stdValR [10, 20, 30] ∧ stdValR [10, 20, 30] < 8.166 :=
  c1_finalize_mean_stddev [10, 20, 30] (by simp)

/-! ### Sorted-label membership -/

/-- Membership is preserved by sorted insertion. -/
theorem mem_insertSorted (x y : String) :
    ∀ l : List String, y ∈ insertSorted x l ↔ y = x ∨ y ∈ l := by
  intro l
  induction l with
  | nil => simp [insertSorted]
  | cons a as ih =>
    rw [insertSorted]
    split
    · simp only [List.mem_cons]
    · simp only [List.mem_cons, ih]
      tauto

/-- Membership is preserved by sorting. -/
theorem mem_sortStrings (y : String) :
    ∀ xs : List String, y ∈ sortStrings xs ↔ y ∈ xs := by
  intro xs
  induction xs with
  | nil => simp [sortStrings]
  | cons a as ih =>
    simp only [sortStrings, List.foldr_cons] at ih ⊢
    rw [mem_insertSorted]
    simp [ih]

/-- A successful `dictGet` exhibits a member with the looked-up key. -/
theorem dictGet_mem {α : Type} (m : List (String × α)) (k : String) (v : α)
    (h : dictGet m k = some v) : (k, v) ∈ m := by
  induction m with
  | nil => cases h
  | cons kv rest ih =>
    rw [dictGet] at h
    by_cases hk : kv.1 = k
    · rw [if_pos hk] at h
      injection h with h2
      obtain ⟨a, b⟩ := kv
      cases hk
      cases h2
      exact List.mem_cons_self _ _
    · rw [if_neg hk] at h
      exact List.mem_cons_of_mem _ (ih h)

/-! ### Delta against baseline (C2, C5) -/

/-- C2: with a baseline supplied, a label the baseline holds gets the
numeric delta `current mean - baseline mean` (sign preserved) in its
summary, and a label the baseline lacks gets no numeric delta field at
all — its table cell is the distinct marker `n/a`, never the number 0. -/
theorem c2_delta_vs_baseline (fsqrt : ℚ → ℚ) (runsArg : ℕ)
    (bmap : List (String × ℚ)) (cases : List (String × Slot))
    (label : String) (slot : Slot)
    (h : dictGet cases label = some slot) :
    buildEntry fsqrt true bmap label slot ∈ buildSystems fsqrt true bmap cases ∧
    buildRow fsqrt true bmap label slot ∈ buildRows fsqrt runsArg true bmap cases ∧
    (∀ b, dictGet bmap label = some b →
      (buildEntry fsqrt true bmap label slot).delta_vs_baseline_ms
        = some (meanValue slot.runs - b)) ∧
    (dictGet bmap label = none →
      (buildEntry fsqrt true bmap label slot).delta_vs_baseline_ms = none ∧
      buildRow fsqrt true bmap label slot
        = [label] ++ slot.runs.map fmtFixed3
            ++ [fmtFixed3 (meanValue slot.runs), fmtFixed3 (stdValue fsqrt slot.runs),
                "n/a", fmtFixed3 slot.budget]) := by
  have hkey : label ∈ cases.map (fun kv => kv.1) :=
    List.mem_map.mpr ⟨(label, slot), dictGet_mem cases label slot h, rfl⟩
  have hsorted : label ∈ sortStrings (cases.map (fun kv => kv.1)) :=
    (mem_sortStrings label _).mpr hkey
  refine ⟨?_, ?_, ?_, ?_⟩
  · exact List.mem_filterMap.mpr ⟨label, hsorted, by rw [h]; rfl⟩
  · exact List.mem_cons_of_mem _ (List.mem_filterMap.mpr ⟨label, hsorted, by rw [h]; rfl⟩)
  · intro b hb
    simp [buildEntry, hb]
  · intro hb
    constructor
    · simp [buildEntry, hb]
    · simp [buildRow, hb]

/-- Slot for the C2 witness: a single trial valued 6.5 milliseconds. -/
def c2Slot : Slot := ⟨Json.null, Json.null, 1, Json.null, Json.null, [13 / 2]⟩

/-- Witness for C2: baseline mean 5.0 and current mean 6.5 give a delta
of exactly +1.5. -/
theorem c2_delta_vs_baseline_witness :
    (buildEntry (fun q => q) true [("sprite_fast", (5 : ℚ))] "sprite_fast" c2Slot).delta_vs_baseline_ms
      = some (3 / 2) := by
  have h := (c2_delta_vs_baseline (fun q => q) 1 [("sprite_fast", 5)]
    [("sprite_fast", c2Slot)] "sprite_fast" c2Slot rfl).2.2.1 5 rfl
  rw [h]
  norm_num [meanValue, c2Slot]

/-- C5: with no baseline supplied, no summary carries a
`delta_vs_baseline_ms` field, the header has no `delta` column, and every
table row consists of exactly label, per-trial values, mean, stddev and
budget — the delta column is absent at run level, not blanked per row. -/
theorem c5_no_baseline_no_delta (fsqrt : ℚ → ℚ) (runsArg : ℕ)
    (bmap : List (String × ℚ)) (cases : List (String × Slot)) :
    (∀ e ∈ buildSystems fsqrt false bmap cases, e.delta_vs_baseline_ms = none) ∧
    headerRow runsArg false
      = ["system"] ++ (List.range runsArg).map (fun i => "run" ++ toString (i + 1))
          ++ ["mean", "stddev", "budget"] ∧
    "delta" ∉ headerRow runsArg false ∧
    (∀ row ∈ buildRows fsqrt runsArg false bmap cases,
      row = headerRow runsArg false ∨
      ∃ label slot, dictGet cases label = some slot ∧
        row = [label] ++ slot.runs.map fmtFixed3
            ++ [fmtFixed3 (meanValue slot.runs), fmtFixed3 (stdValue fsqrt slot.runs),
                fmtFixed3 slot.budget]) := by
  refine ⟨?_, by simp [headerRow], ?_, ?_⟩
  · intro e he
    obtain ⟨l, _, hl⟩ := List.mem_filterMap.mp he
    cases hget : dictGet cases l with
    | none => rw [hget] at hl; cases hl
    | some slot =>
      rw [hget] at hl
      simp only [Option.map_some'] at hl
      cases hl
      simp [buildEntry]
  · intro hmem
    rw [show headerRow runsArg false
        = ["system"] ++ (List.range runsArg).map (fun i => "run" ++ toString (i + 1))
          ++ ["mean", "stddev", "budget"] from by simp [headerRow]] at hmem
    rcases List.mem_append.mp hmem with h | h
    · rcases List.mem_append.mp h with h | h
      · exact absurd h (by decide)
      · obtain ⟨i, _, hi⟩ := List.mem_map.mp h
        have hdata := congrArg String.data hi
        rw [String.data_append] at hdata
        have hhead : (("run".data ++ (toString (i + 1)).data).head?) = some 'd' := by
          rw [hdata]; rfl
        have hr : (("run".data ++ (toString (i + 1)).data).head?) = some 'r' := rfl
        rw [hr] at hhead
        exact absurd hhead (by decide)
    · exact absurd h (by decide)
  · intro row hrow
    rcases List.mem_cons.mp hrow with h | h
    · exact Or.inl h
    · right
      obtain ⟨l, _, hl⟩ := List.mem_filterMap.mp h
      cases hget : dictGet cases l with
      | none => rw [hget] at hl; cases hl
      | some slot =>
        rw [hget] at hl
        simp only [Option.map_some'] at hl
        cases hl
        exact ⟨l, slot, hget, by simp [buildRow]⟩

/-! ### Abort on trial failure (C4) -/

/-- A failing trial aborts the collection fold with its error, whatever
completed before it and whatever would come after. -/
theorem collectTrials_error (e : TrialError) :
    ∀ (pre post : List (Except TrialError (List CaseEntry)))
      (acc : List (String × Slot)),
      (∀ t ∈ pre, exceptIsOk t = true) →
      collectTrials (pre ++ .error e :: post) acc = .error e := by
  intro pre
  induction pre with
  | nil => intro post acc _; rfl
  | cons t ts ih =>
    intro post acc hok
    cases t with
    | error e2 => cases hok _ (List.mem_cons_self _ _)
    | ok entries =>
      simp only [List.cons_append, collectTrials]
      exact ih post _ (fun t ht => hok t (List.mem_cons_of_mem _ ht))

/-- C4: when some trial fails (here: after a prefix of completed trials),
the pipeline aborts at that trial: `main` returns the trial error — hence
writes neither the JSON nor the text artifact and returns no aggregate of
the completed trials — and its outcome does not depend on what any later
trial would have produced. -/
theorem c4_abort_on_trial_failure (fsqrt : ℚ → ℚ) (cfg : RunConfig)
    (pre post post2 : List (Except TrialError (List CaseEntry))) (e : TrialError)
    (hok : ∀ t ∈ pre, exceptIsOk t = true) :
    mainRun fsqrt cfg (pre ++ .error e :: post) = .error (.trial e) ∧
    mainRun fsqrt cfg (pre ++ .error e :: post)
      = mainRun fsqrt cfg (pre ++ .error e :: post2) := by
  have h1 := collectTrials_error e pre post [] hok
  have h2 := collectTrials_error e pre post2 [] hok
  constructor
  · unfold mainRun
    rw [h1]
  · unfold mainRun
    rw [h1, h2]

/-- Report entry for the C4 witness. -/
def c4Case : CaseEntry := ⟨"sprite_fast", .null, .null, 2, .null, .null, 1⟩

/-- Configuration for the C4 witness. -/
def c4Config : RunConfig :=
  ⟨3, "bench", "t0", "c0", [], [], false, [], none, none⟩

/-- Witness for C4: trial 2 of 3 fails; the run returns the harness
error (no artifacts, no partial aggregate), and trial 3 is irrelevant. -/
theorem c4_abort_on_trial_failure_witness :
    mainRun (fun q => q) c4Config
        ([.ok [c4Case]] ++ .error .harnessFailed :: [.ok [c4Case]])
      = .error (.trial .harnessFailed) ∧
    mainRun (fun q => q) c4Config
        ([.ok [c4Case]] ++ .error .harnessFailed :: [.ok [c4Case]])
      = mainRun (fun q => q) c4Config ([.ok [c4Case]] ++ .error .harnessFailed :: []) :=
  c4_abort_on_trial_failure (fun q => q) c4Config [.ok [c4Case]] [.ok [c4Case]] []
    .harnessFailed (by decide)

/-! ### Baseline loader (C7, C10) -/

/-- `entry["label"]` never raises the artifact-missing error. -/
theorem entryLabel_ne_notFound (e : Json) : entryLabel e ≠ .error .notFound := by
  unfold entryLabel
  cases jGet e "label" with
  | none => simp
  | some v => cases v <;> simp

/-- `entry.get("mean_ms", 0.0)` never raises the artifact-missing
error. -/
theorem entryMean_ne_notFound (e : Json) : entryMean e ≠ .error .notFound := by
  unfold entryMean
  cases jGet e "mean_ms" with
  | none => simp
  | some v => cases v <;> simp

/-- The mapping pass never raises the artifact-missing error. -/
theorem buildMapping_ne_notFound :
    ∀ (es : List Json) (acc : List (String × ℚ)),
      buildMapping es acc ≠ .error .notFound := by
  intro es
  induction es with
  | nil => intro acc h; cases h
  | cons e es ih =>
    intro acc
    simp only [buildMapping]
    cases he : entryLabel e with
    | error err =>
      intro h
      injection h with h2
      subst h2
      exact entryLabel_ne_notFound e he
    | ok olabel =>
      cases olabel with
      | none => exact ih acc
      | some l =>
        cases hm : entryMean e with
        | error err =>
          intro h
          injection h with h2
          subst h2
          exact entryMean_ne_notFound e hm
        | ok x => exact ih (dictInsert acc l x)

/-- C7: the Baseline Loader raises BaselineNotFoundError exactly when no
artifact exists at the path — an existing artifact may fail differently
(a non-dict artifact raises `AttributeError`) but never with
BaselineNotFoundError — and an existing readable baseline artifact, a
ReportPayload-shaped JSON object, whose `systems` collection holds no
entries (key absent or empty array) yields the empty label-to-mean map
rather than an error. -/
theorem c7_baseline_loader (fs : Option Json) :
    (loadBaseline fs = .error .notFound ↔ fs = none) ∧
    (∀ fields, fs = some (.obj fields) →
      (jGet (.obj fields) "systems" = none ∨
        jGet (.obj fields) "systems" = some (.arr [])) →
      loadBaseline fs = .ok []) := by
  constructor
  · constructor
    · intro h
      cases fs with
      | none => rfl
      | some j =>
        exfalso
        cases j with
        | null => cases h
        | bool b => cases h
        | num x => cases h
        | str s => cases h
        | arr es => cases h
        | obj fields =>
          simp only [loadBaseline] at h
          cases hs : lookupLast "systems" fields with
          | none => rw [hs] at h; cases h
          | some v =>
            rw [hs] at h
            cases v with
            | null => simp at h
            | bool b => simp at h
            | num x => simp at h
            | str s =>
              by_cases he : s.isEmpty <;> simp [he] at h
            | arr es => exact buildMapping_ne_notFound es [] h
            | obj fs2 =>
              by_cases he : fs2.isEmpty <;> simp [he] at h
    · intro h
      subst h
      rfl
  · intro fields hj hsys
    subst hj
    simp only [loadBaseline]
    simp only [jGet] at hsys
    rcases hsys with hs | hs
    · rw [hs]
    · rw [hs]
      rfl

/-- Replacing the bindings of one key leaves the lookup of every other
key unchanged. -/
theorem dictGet_map_replace {α : Type} (k k2 : String) (v : α) (hne : k2 ≠ k) :
    ∀ m : List (String × α),
      dictGet (m.map (fun kv => if kv.1 = k2 then (k2, v) else kv)) k = dictGet m k := by
  intro m
  induction m with
  | nil => rfl
  | cons kv rest ih =>
    simp only [List.map_cons]
    by_cases hk2 : kv.1 = k2
    · rw [if_pos hk2, dictGet, dictGet, if_neg hne, if_neg (by rw [hk2]; exact hne)]
      exact ih
    · rw [if_neg hk2, dictGet, dictGet]
      by_cases hk : kv.1 = k
      · rw [if_pos hk, if_pos hk]
      · rw [if_neg hk, if_neg hk]
        exact ih

/-- Appending a binding for a different key leaves a lookup unchanged. -/
theorem dictGet_append_ne {α : Type} (k k2 : String) (v : α) (hne : k2 ≠ k) :
    ∀ m : List (String × α), dictGet (m ++ [(k2, v)]) k = dictGet m k := by
  intro m
  induction m with
  | nil => simp [dictGet, hne]
  | cons kv rest ih =>
    rw [List.cons_append, dictGet, dictGet]
    by_cases hk : kv.1 = k
    · rw [if_pos hk, if_pos hk]
    · rw [if_neg hk, if_neg hk]
      exact ih

/-- After inserting a binding, looking its key up finds its value. -/
theorem dictGet_insert_self {α : Type} (k : String) (v : α) :
    ∀ m : List (String × α), dictGet (dictInsert m k v) k = some v := by
  intro m
  induction m with
  | nil => simp [dictInsert, dictGet]
  | cons kv rest ih =>
    by_cases hk : kv.1 = k
    · rw [dictInsert, if_pos (by simp [List.any_cons, hk])]
      simp only [List.map_cons, if_pos hk]
      simp [dictGet]
    · by_cases hrest : rest.any (fun p => p.1 = k)
      · rw [dictInsert, if_pos (by simp [List.any_cons, hrest])]
        simp only [List.map_cons, if_neg hk]
        rw [dictGet, if_neg hk]
        rw [dictInsert, if_pos hrest] at ih
        exact ih
      · rw [dictInsert, if_neg (by simp [List.any_cons, hk, hrest])]
        rw [List.cons_append, dictGet, if_neg hk]
        rw [dictInsert, if_neg hrest] at ih
        exact ih

/-- Inserting a binding for a different key leaves a lookup unchanged. -/
theorem dictGet_insert_ne {α : Type} (k k2 : String) (v : α) (hne : k2 ≠ k)
    (m : List (String × α)) : dictGet (dictInsert m k2 v) k = dictGet m k := by
  rw [dictInsert]
  by_cases hany : m.any (fun p => p.1 = k2)
  · rw [if_pos hany]
    exact dictGet_map_replace k k2 v hne m
  · rw [if_neg hany]
    exact dictGet_append_ne k k2 v hne m

/-- An entry whose label parsed to `some l` carries the label string
`l`. -/
theorem entryLabel_ok_str (e : Json) (l : String)
    (h : entryLabel e = .ok (some l)) : jGet e "label" = some (.str l) := by
  unfold entryLabel at h
  cases hj : jGet e "label" with
  | none => rw [hj] at h; cases h
  | some v =>
    rw [hj] at h
    cases v with
    | str s =>
      injection h with h2
      injection h2 with h3
      rw [h3]
    | null => injection h with h2; cases h2
    | bool b => injection h with h2; cases h2
    | num x => injection h with h2; cases h2
    | arr es => cases h
    | obj fs => cases h

/-- Lookup through the mapping pass: when every entry labelled `l` maps
to mean 0 and either some entry is labelled `l` or the accumulator
already binds `l` to 0, the final mapping binds `l` to 0. -/
theorem buildMapping_lookup (l : String) :
    ∀ (es : List Json) (acc m : List (String × ℚ)),
      buildMapping es acc = .ok m →
      (∀ e ∈ es, entryLabel e = .ok (some l) → entryMean e = .ok 0) →
      ((∃ e ∈ es, entryLabel e = .ok (some l)) ∨ dictGet acc l = some 0) →
      dictGet m l = some 0 := by
  intro es
  induction es with
  | nil =>
    intro acc m hbm hall hex
    injection hbm with hbm2
    subst hbm2
    rcases hex with ⟨e, he, _⟩ | hacc
    · cases he
    · exact hacc
  | cons e es ih =>
    intro acc m hbm hall hex
    simp only [buildMapping] at hbm
    cases hl : entryLabel e with
    | error err => rw [hl] at hbm; cases hbm
    | ok olabel =>
      rw [hl] at hbm
      cases olabel with
      | none =>
        apply ih acc m hbm (fun x hx => hall x (List.mem_cons_of_mem _ hx))
        rcases hex with ⟨e2, he2, hle2⟩ | hacc
        · rcases List.mem_cons.mp he2 with rfl | h2
          · rw [hl] at hle2
            injection hle2 with h3
            cases h3
          · exact Or.inl ⟨e2, h2, hle2⟩
        · exact Or.inr hacc
      | some l2 =>
        cases hm : entryMean e with
        | error err => rw [hm] at hbm; cases hbm
        | ok x =>
          rw [hm] at hbm
          by_cases hll : l2 = l
          · subst hll
            have hx0 : x = 0 := by
              have h0 := hall e (List.mem_cons_self _ _) hl
              rw [hm] at h0
              injection h0
            subst hx0
            apply ih (dictInsert acc l2 0) m hbm
              (fun x2 hx2 => hall x2 (List.mem_cons_of_mem _ hx2))
            exact Or.inr (dictGet_insert_self l2 0 acc)
          · apply ih (dictInsert acc l2 x) m hbm
              (fun x2 hx2 => hall x2 (List.mem_cons_of_mem _ hx2))
            rcases hex with ⟨e2, he2, hle2⟩ | hacc
            · rcases List.mem_cons.mp he2 with rfl | h2
              · rw [hl] at hle2
                injection hle2 with h3
                injection h3 with h4
                exact absurd h4 hll
              · exact Or.inl ⟨e2, h2, hle2⟩
            · exact Or.inr (by rw [dictGet_insert_ne l l2 x hll acc]; exact hacc)

/-- C10 (implicit in the source): a baseline entry that carries a label
but lacks the `mean_ms` field is loaded with the silent numeric default
0.0, and the Delta Comparator then reports the numeric delta
`current mean - 0.0` for that label rather than treating the baseline
mean as missing. -/
theorem c10_missing_mean_defaults_zero (art : Json) (m : List (String × ℚ))
    (es : List Json) (e : Json) (l : String)
    (hload : loadBaseline (some art) = .ok m)
    (hsys : jGet art "systems" = some (.arr es))
    (he : e ∈ es)
    (hl : jGet e "label" = some (.str l))
    (hmean : jGet e "mean_ms" = none)
    (hall : ∀ e2 ∈ es, jGet e2 "label" = some (.str l) → jGet e2 "mean_ms" = none) :
    dictGet m l = some 0 ∧
    ∀ (fsqrt : ℚ → ℚ) (slot : Slot),
      (buildEntry fsqrt true m l slot).delta_vs_baseline_ms
        = some (meanValue slot.runs - 0) := by
  obtain ⟨fields, rfl⟩ : ∃ fields, art = .obj fields := by
    cases art with
    | obj fields => exact ⟨fields, rfl⟩
    | null => simp [jGet] at hsys
    | bool b => simp [jGet] at hsys
    | num x => simp [jGet] at hsys
    | str s2 => simp [jGet] at hsys
    | arr es2 => simp [jGet] at hsys
  simp only [loadBaseline] at hload
  simp only [jGet] at hsys
  rw [hsys] at hload
  have hget : dictGet m l = some 0 := by
    apply buildMapping_lookup l es [] m hload
    · intro e2 he2 hle2
      have := hall e2 he2 (entryLabel_ok_str e2 l hle2)
      simp [entryMean, this]
    · exact Or.inl ⟨e, he, by simp [entryLabel, hl]⟩
  refine ⟨hget, ?_⟩
  intro fsqrt slot
  simp [buildEntry, hget]

/-- Entry for the C10 witness: a label, no `mean_ms`. -/
def c10Entry : Json := .obj [("label", .str "sprite_fast")]

/-- Artifact for the C10 witness. -/
def c10Artifact : Json := .obj [("systems", .arr [c10Entry])]

/-- Witness for C10 at the concrete artifact. -/
theorem c10_missing_mean_defaults_zero_witness :
    dictGet [("sprite_fast", (0 : ℚ))] "sprite_fast" = some 0 ∧
    ∀ (fsqrt : ℚ → ℚ) (slot : Slot),
      (buildEntry fsqrt true [("sprite_fast", (0 : ℚ))] "sprite_fast" slot).delta_vs_baseline_ms
        = some (meanValue slot.runs - 0) :=
  c10_missing_mean_defaults_zero c10Artifact [("sprite_fast", 0)] [c10Entry] c10Entry
    "sprite_fast" rfl rfl (List.mem_singleton.mpr rfl) rfl rfl
    (fun e2 he2 _ => by rw [List.mem_singleton.mp he2]; rfl)

/-! ### Payload / baseline round-trip (C8) -/

/-- The payload object exposes its `systems` array under the `systems`
key. -/
theorem jGet_payload_systems (p : SummaryPayload) :
    jGet (payloadToJson p) "systems" = some (.arr (p.systems.map builtEntryToJson)) := by
  obtain ⟨l, ts, cm, cmd, env, bm, am, sys⟩ := p
  cases bm <;> cases am <;> rfl

/-- On a serialized payload (always a JSON object) the loader reaches
the mapping pass over the serialized `systems` entries. -/
theorem loadBaseline_payload (p : SummaryPayload) :
    loadBaseline (some (payloadToJson p))
      = buildMapping (p.systems.map builtEntryToJson) [] := by
  obtain ⟨l, ts, cm, cmd, env, bm, am, sys⟩ := p
  cases bm <;> cases am <;> rfl

/-- A serialized summary entry parses back to its label. -/
theorem entryLabel_builtEntry (e : BuiltEntry) :
    entryLabel (builtEntryToJson e) = .ok (some e.label) := by
  obtain ⟨l, u, c, b, r, mn, sd, d⟩ := e
  cases d <;> rfl

/-- A serialized summary entry parses back to its mean. -/
theorem entryMean_builtEntry (e : BuiltEntry) :
    entryMean (builtEntryToJson e) = .ok e.mean_ms := by
  obtain ⟨l, u, c, b, r, mn, sd, d⟩ := e
  cases d <;> rfl

/-- The mapping pass over serialized summary entries with fresh, distinct
labels appends exactly the label-to-mean association. -/
theorem buildMapping_payload :
    ∀ (sys : List BuiltEntry) (acc : List (String × ℚ)),
      (∀ e ∈ sys, ∀ kv ∈ acc, kv.1 ≠ e.label) →
      (sys.map (fun e => e.label)).Nodup →
      buildMapping (sys.map builtEntryToJson) acc
        = .ok (acc ++ sys.map (fun e => (e.label, e.mean_ms))) := by
  intro sys
  induction sys with
  | nil => intro acc _ _; simp [buildMapping]
  | cons e rest ih =>
    intro acc hdisj hnd
    simp only [List.map_cons, buildMapping, entryLabel_builtEntry, entryMean_builtEntry]
    have hfresh : ¬ (acc.any (fun p => p.1 = e.label) = true) := by
      simp only [List.any_eq_true, decide_eq_true_eq]
      rintro ⟨kv, hkv, hk⟩
      exact hdisj e (List.mem_cons_self _ _) kv hkv hk
    rw [dictInsert, if_neg hfresh]
    obtain ⟨hnotin, hndrest⟩ := List.nodup_cons.mp hnd
    rw [ih (acc ++ [(e.label, e.mean_ms)]) ?_ hndrest]
    · simp
    · intro e2 he2 kv hkv
      rcases List.mem_append.mp hkv with h | h
      · exact hdisj e2 (List.mem_cons_of_mem _ he2) kv h
      · rw [List.mem_singleton.mp h]
        intro heq
        apply hnotin
        show e.label ∈ List.map (fun e => e.label) rest
        rw [show e.label = e2.label from heq]
        exact List.mem_map.mpr ⟨e2, he2, rfl⟩

/-- C8: serializing a report payload to the JSON artifact and loading the
artifact back with the Baseline Loader reproduces exactly the association
of each summary label to its `mean_ms` (labels occur at most once in a
payload). -/
theorem c8_payload_roundtrip (p : SummaryPayload)
    (hnd : (p.systems.map (fun e => e.label)).Nodup) :
    loadBaseline (some (payloadToJson p))
      = .ok (p.systems.map (fun e => (e.label, e.mean_ms))) := by
  rw [loadBaseline_payload p,
    buildMapping_payload p.systems [] (by intro e _ kv hkv; cases hkv) hnd]
  simp

/-- First summary entry of the C8 witness payload. -/
def c8Entry1 : BuiltEntry := ⟨"sprite_fast", .null, .null, 1, [2], 2, 0, none⟩

/-- Second summary entry of the C8 witness payload. -/
def c8Entry2 : BuiltEntry := ⟨"sprite_general", .null, .null, 1, [3], 3, 0, some 1⟩

/-- The C8 witness payload. -/
def c8Payload : SummaryPayload :=
  ⟨"bench", "t0", "c0", [], [], none, none, [c8Entry1, c8Entry2]⟩

/-- Witness for C8 at a concrete two-label payload. -/
theorem c8_payload_roundtrip_witness :
    loadBaseline (some (payloadToJson c8Payload))
      = .ok (c8Payload.systems.map (fun e => (e.label, e.mean_ms))) :=
  c8_payload_roundtrip c8Payload (by decide)

/-! ### Table alignment (C9) -/

/-- Width of the cell at column `i` of a row, 0 past its end. -/
def cellLen (row : List String) (i : ℕ) : ℕ :=
  match row[i]? with
  | some c => c.length
  | none => 0

/-- Modelled from the spec: the width of column `i` is the maximum width
needed in that column across all rows, header included. -/
def colWidth (rows : List (List String)) (i : ℕ) : ℕ :=
  (rows.map (fun r => cellLen r i)).foldr max 0

/-- Pure column-wise maximum of a width array against a row (the
successful branch of `bumpWidths`). -/
def mergeW : List ℕ → List String → List ℕ
  | ws, [] => ws
  | [], _ :: _ => []
  | w :: ws, c :: cs => max w c.length :: mergeW ws cs

/-- `bumpWidths` succeeds exactly as `mergeW` on a row no wider than the
width array. -/
theorem bumpWidths_eq_mergeW :
    ∀ (row : List String) (ws : List ℕ), row.length ≤ ws.length →
      bumpWidths ws row = some (mergeW ws row) := by
  intro row
  induction row with
  | nil => intro ws _; cases ws <;> rfl
  | cons c cs ih =>
    intro ws h
    cases ws with
    | nil => simp at h
    | cons w ws2 =>
      simp only [bumpWidths, mergeW]
      rw [ih ws2 (by simpa using h)]
      rfl

/-- `mergeW` preserves the width-array length. -/
theorem mergeW_length :
    ∀ (row : List String) (ws : List ℕ), row.length ≤ ws.length →
      (mergeW ws row).length = ws.length := by
  intro row
  induction row with
  | nil => intro ws _; cases ws <;> rfl
  | cons c cs ih =>
    intro ws h
    cases ws with
    | nil => simp at h
    | cons w ws2 =>
      simp only [mergeW, List.length_cons]
      rw [ih ws2 (by simpa using h)]

/-- Pointwise value of `mergeW`. -/
theorem mergeW_get :
    ∀ (row : List String) (ws : List ℕ) (i : ℕ),
      (mergeW ws row)[i]? = (ws[i]?).map (fun w => max w (cellLen row i)) := by
  intro row
  induction row with
  | nil =>
    intro ws i
    have hc : cellLen [] i = 0 := by simp [cellLen]
    cases ws with
    | nil => simp [mergeW]
    | cons w ws2 =>
      rw [show mergeW (w :: ws2) [] = w :: ws2 from rfl, hc]
      cases h : (w :: ws2)[i]? <;> simp [h]
  | cons c cs ih =>
    intro ws i
    cases ws with
    | nil => simp [mergeW]
    | cons w ws2 =>
      cases i with
      | zero => simp [mergeW, cellLen]
      | succ n =>
        simp only [mergeW, List.getElem?_cons_succ]
        rw [ih ws2 n]
        have : cellLen (c :: cs) (n + 1) = cellLen cs n := by
          simp [cellLen]
        rw [this]

/-- The width fold of `format_table` succeeds as the pure fold when no
row is wider than the initial width array. -/
theorem foldl_bind_bump :
    ∀ (rows : List (List String)) (w0 : List ℕ),
      (∀ row ∈ rows, row.length ≤ w0.length) →
      rows.foldl (fun acc row => acc.bind (fun ws => bumpWidths ws row)) (some w0)
        = some (rows.foldl mergeW w0) := by
  intro rows
  induction rows with
  | nil => intro w0 _; rfl
  | cons r rs ih =>
    intro w0 h
    simp only [List.foldl_cons]
    rw [show (some w0).bind (fun ws => bumpWidths ws r) = bumpWidths w0 r from rfl,
      bumpWidths_eq_mergeW r w0 (h r (List.mem_cons_self _ _))]
    apply ih
    intro row hrow
    rw [mergeW_length r w0 (h r (List.mem_cons_self _ _))]
    exact h row (List.mem_cons_of_mem _ hrow)

/-- Pointwise value of the pure width fold. -/
theorem foldl_mergeW_get (i : ℕ) :
    ∀ (rows : List (List String)) (w0 : List ℕ),
      (rows.foldl mergeW w0)[i]?
        = (w0[i]?).map (fun w => rows.foldl (fun a r => max a (cellLen r i)) w) := by
  intro rows
  induction rows with
  | nil =>
    intro w0
    cases h : w0[i]? <;> simp [h]
  | cons r rs ih =>
    intro w0
    simp only [List.foldl_cons]
    rw [ih (mergeW w0 r), mergeW_get r w0 i]
    cases h : w0[i]? <;> simp [h]

/-- Folding `max` from a seed is the seed joined with the fold from 0. -/
theorem foldl_max_eq :
    ∀ (l : List ℕ) (w : ℕ), l.foldl max w = max w (l.foldr max 0) := by
  intro l
  induction l with
  | nil => intro w; simp
  | cons a as ih =>
    intro w
    simp only [List.foldl_cons, List.foldr_cons]
    rw [ih (max w a)]
    omega

/-- Right-justifying against a width array that pointwise holds the
column widths is right-justifying each cell by its column width. -/
theorem zipWith_pad_eq :
    ∀ (row : List String) (f : ℕ → ℕ) (ws : List ℕ),
      (∀ i, i < row.length → ws[i]? = some (f i)) →
      List.zipWith padCell ws row = row.mapIdx (fun i c => padCell (f i) c) := by
  intro row
  induction row with
  | nil => intro f ws _; simp
  | cons c cs ih =>
    intro f ws h
    cases ws with
    | nil =>
      have := h 0 (by simp)
      simp at this
    | cons w ws2 =>
      have h0 := h 0 (by simp)
      simp only [List.getElem?_cons_zero, Option.some.injEq] at h0
      subst h0
      simp only [List.zipWith_cons_cons, List.mapIdx_cons]
      congr 1
      apply ih (fun i => f (i + 1)) ws2
      intro i hi
      have := h (i + 1) (by simpa using Nat.succ_lt_succ hi)
      simpa using this

/-- `format_table` on a header-led table none of whose rows is wider than
the header: it succeeds, and the output is every row with each cell
right-justified to the maximum width its column needs across all rows
including the header, cells joined by two spaces and rows by newlines. -/
theorem format_table_spec (r0 : List String) (rest : List (List String))
    (hlen : ∀ row ∈ r0 :: rest, row.length ≤ r0.length) :
    format_table (r0 :: rest)
      = some (String.intercalate "\n"
          ((r0 :: rest).map (fun row =>
            String.intercalate "  "
              (row.mapIdx (fun i c => padCell (colWidth (r0 :: rest) i) c))))) := by
  have hw0len : (r0.map (fun _ => (0 : ℕ))).length = r0.length := by simp
  simp only [format_table]
  rw [foldl_bind_bump (r0 :: rest) (r0.map (fun _ => 0)) (by rw [hw0len]; exact hlen)]
  refine congrArg some ?_
  congr 1
  apply List.map_congr_left
  intro row hrow
  refine congrArg (String.intercalate "  ") ?_
  apply zipWith_pad_eq row (colWidth (r0 :: rest))
  intro i hi
  rw [foldl_mergeW_get]
  have hi0 : i < r0.length := lt_of_lt_of_le hi (hlen row hrow)
  have hw0 : (r0.map (fun _ => (0 : ℕ)))[i]? = some 0 := by
    rw [List.getElem?_map, List.getElem?_eq_getElem hi0]
    rfl
  rw [hw0]
  simp only [Option.map_some']
  congr 1
  rw [show ((r0 :: rest).foldl (fun a r => max a (cellLen r i)) 0)
      = (((r0 :: rest).map (fun r => cellLen r i)).foldl max 0) from
    (List.foldl_map (fun r => cellLen r i) max (r0 :: rest) 0).symm]
  rw [foldl_max_eq]
  simp [colWidth]

/-- C9: for the table `main` renders — header plus one row per label,
where every label was observed in at most the requested number of trials
(some labels possibly in fewer) — formatting succeeds and pads every cell
to the maximum width needed in its column across all rows including the
header; and each data row lists, in order: label, one 3-decimal cell per
observed trial value, mean, standard deviation, the delta cell only when
a baseline was supplied, and budget. -/
theorem c9_table_alignment (fsqrt : ℚ → ℚ) (runsArg : ℕ) (hasB : Bool)
    (bmap : List (String × ℚ)) (cases : List (String × Slot))
    (hruns : ∀ kv ∈ cases, kv.2.runs.length ≤ runsArg) :
    format_table (buildRows fsqrt runsArg hasB bmap cases)
      = some (String.intercalate "\n"
          ((buildRows fsqrt runsArg hasB bmap cases).map (fun row =>
            String.intercalate "  "
              (row.mapIdx (fun i c =>
                padCell (colWidth (buildRows fsqrt runsArg hasB bmap cases) i) c))))) ∧
    (∀ row ∈ buildRows fsqrt runsArg hasB bmap cases,
      row = headerRow runsArg hasB ∨
      ∃ label slot, dictGet cases label = some slot ∧
        row = [label] ++ slot.runs.map fmtFixed3
            ++ [fmtFixed3 (meanValue slot.runs), fmtFixed3 (stdValue fsqrt slot.runs)]
            ++ (if hasB then
                  [match dictGet bmap label with
                   | none => "n/a"
                   | some b => fmtSigned3 (meanValue slot.runs - b)]
                else [])
            ++ [fmtFixed3 slot.budget]) := by
  have hshape : ∀ row ∈ buildRows fsqrt runsArg hasB bmap cases,
      row = headerRow runsArg hasB ∨
      ∃ label slot, dictGet cases label = some slot ∧
        row = [label] ++ slot.runs.map fmtFixed3
            ++ [fmtFixed3 (meanValue slot.runs), fmtFixed3 (stdValue fsqrt slot.runs)]
            ++ (if hasB then
                  [match dictGet bmap label with
                   | none => "n/a"
                   | some b => fmtSigned3 (meanValue slot.runs - b)]
                else [])
            ++ [fmtFixed3 slot.budget] := by
    intro row hrow
    rcases List.mem_cons.mp hrow with h | h
    · exact Or.inl h
    · right
      obtain ⟨l, _, hl⟩ := List.mem_filterMap.mp h
      cases hget : dictGet cases l with
      | none => rw [hget] at hl; cases hl
      | some slot =>
        rw [hget] at hl
        simp only [Option.map_some'] at hl
        cases hl
        exact ⟨l, slot, hget, by simp [buildRow]⟩
  have hlen : ∀ row ∈ buildRows fsqrt runsArg hasB bmap cases,
      row.length ≤ (headerRow runsArg hasB).length := by
    intro row hrow
    have hhead : (headerRow runsArg hasB).length
        = 1 + runsArg + 2 + (if hasB then 1 else 0) + 1 := by
      cases hasB <;> simp [headerRow] <;> omega
    rcases hshape row hrow with rfl | ⟨label, slot, hget, rfl⟩
    · exact le_refl _
    · have hr : slot.runs.length ≤ runsArg :=
        hruns (label, slot) (dictGet_mem cases label slot hget)
      rw [hhead]
      cases hasB <;> simp <;> omega
  refine ⟨?_, hshape⟩
  rw [show buildRows fsqrt runsArg hasB bmap cases
      = headerRow runsArg hasB ::
          (sortStrings (cases.map (fun kv => kv.1))).filterMap
            (fun l => (dictGet cases l).map (fun slot => buildRow fsqrt hasB bmap l slot))
    from rfl] at hlen ⊢
  exact format_table_spec _ _ hlen

/-- Slot observed in only two of three trials (C9 witness). -/
def c9SlotA : Slot := ⟨.null, .null, 1, .null, .null, [1, 2]⟩

/-- Slot observed in all three trials (C9 witness). -/
def c9SlotB : Slot := ⟨.null, .null, 1, .null, .null, [1, 2, 3]⟩

/-- Label table for the C9 witness. -/
def c9Cases : List (String × Slot) := [("alpha", c9SlotA), ("beta", c9SlotB)]

/-- Witness for C9: three requested trials, one label observed twice and
one three times, baseline supplied. -/
theorem c9_table_alignment_witness :
    format_table (buildRows (fun q => q) 3 true [] c9Cases)
      = some (String.intercalate "\n"
          ((buildRows (fun q => q) 3 true [] c9Cases).map (fun row =>
            String.intercalate "  "
              (row.mapIdx (fun i c =>
                padCell (colWidth (buildRows (fun q => q) 3 true [] c9Cases) i) c))))) ∧
    (∀ row ∈ buildRows (fun q => q) 3 true [] c9Cases,
      row = headerRow 3 true ∨
      ∃ label slot, dictGet c9Cases label = some slot ∧
        row = [label] ++ slot.runs.map fmtFixed3
            ++ [fmtFixed3 (meanValue slot.runs), fmtFixed3 (stdValue (fun q => q) slot.runs)]
            ++ (if true then
                  [match dictGet [] label with
                   | none => "n/a"
                   | some b => fmtSigned3 (meanValue slot.runs - b)]
                else [])
            ++ [fmtFixed3 slot.budget]) :=
  c9_table_alignment (fun q => q) 3 true [] c9Cases (by decide)
